import Mathlib

set_option maxRecDepth 16000

/-!
Verification of the email-finder repository core (app/verifier.py and
app/finder.py) against its natural-language specification.

Modelling conventions:
* Python floats are modelled as rationals (ℚ); Python `round(x, 2)` is
  modelled as round-half-up to two decimals (the values the claims exercise
  are never at an exact half-cent tie, where Python's banker rounding could
  differ).
* Python `None` is modelled with `Option`.
* Network effects (DNS answers, SMTP probe sequences) are passed in as
  explicit parameters; the functions under verification are the pure
  transformations the source performs on them.
-/

/-! ## Python string primitives -/

/-- Characters matched by Python's `str` whitespace (`str.strip`, `str.split`,
and `\s` in a non-bytes regex). -/
def isPyWs (c : Char) : Bool :=
  c = ' ' || c = '\t' || c = '\n' || c = '\r' || c = '\x0b' || c = '\x0c' ||
  c = '\x1c' || c = '\x1d' || c = '\x1e' || c = '\x1f' || c = '\x85' || c = '\xa0' ||
  c = '\u1680' || ('\u2000' ≤ c && c ≤ '\u200a') || c = '\u2028' || c = '\u2029' ||
  c = '\u202f' || c = '\u205f' || c = '\u3000'

/-- Python `str.strip()` on a character list. -/
def pyStripL (l : List Char) : List Char :=
  ((l.dropWhile isPyWs).reverse.dropWhile isPyWs).reverse

/-- Python `str.strip()`; this is `normalize_email` in app/verifier.py. -/
def pyStrip (s : String) : String := String.mk (pyStripL s.toList)

/-- Python `str.lower()` (ASCII; non-ASCII letters are left unchanged, which
never affects the results proved here because every consumer filters to an
ASCII character class afterwards). -/
def pyLower (s : String) : String := String.mk (s.toList.map Char.toLower)

/-- Python `str.split()` with no argument: split on whitespace runs,
dropping empty fields. -/
def splitWsAux : List Char → List Char → List (List Char)
  | [], acc => if acc = [] then [] else [acc.reverse]
  | c :: cs, acc =>
    if isPyWs c then
      if acc = [] then splitWsAux cs [] else acc.reverse :: splitWsAux cs []
    else splitWsAux cs (c :: acc)

def splitWs (l : List Char) : List (List Char) := splitWsAux l []

/-! ## EMAIL_REGEX

The source pattern is the anchored
regular expression matching local parts over the class A-Za-z0-9._%+- ,
an at sign, a domain over A-Za-z0-9.- , a dot and a 2+ letter TLD.
`re.match` with a trailing dollar also accepts one trailing newline. -/

/-- Characters of the local-part class `[A-Za-z0-9._%+-]`. -/
def localChar (c : Char) : Bool :=
  c.isAlpha || c.isDigit || c = '.' || c = '_' || c = '%' || c = '+' || c = '-'

/-- Characters of the domain class `[A-Za-z0-9.-]`. -/
def mxDomChar (c : Char) : Bool :=
  c.isAlpha || c.isDigit || c = '.' || c = '-'

/-- The domain must decompose as `X ++ "." ++ T` with `X` nonempty and `T`
a pure-alpha suffix of length at least two.  Because `T` may not contain a
dot, the splitting dot is necessarily the last dot. -/
def domainTail (dom : List Char) : Bool :=
  let revT := dom.reverse.takeWhile (· ≠ '.')
  let revRest := dom.reverse.dropWhile (· ≠ '.')
  match revRest with
  | '.' :: revX => revX ≠ [] && revT.length ≥ 2 && revT.all (·.isAlpha)
  | _ => false

/-- Anchored match of the email pattern against an exact character list. -/
def emailCore (l : List Char) : Bool :=
  let localPart := l.takeWhile (· ≠ '@')
  let rest := l.dropWhile (· ≠ '@')
  match rest with
  | '@' :: dom =>
    localPart ≠ [] && localPart.all localChar && dom.all mxDomChar && domainTail dom
  | _ => false

/-- Python `EMAIL_REGEX.match(s)` viewed as a Boolean: the dollar anchor also
matches just before a single trailing newline. -/
def emailMatch (s : String) : Bool :=
  let l := s.toList
  emailCore l ||
    (match l.getLast? with
     | some '\n' => emailCore l.dropLast
     | _ => false)

/-! ## app/finder.py: clean_name, clean_domain, generate_patterns -/

/-- Python `clean_name`: delete every character that is neither an ASCII
letter nor whitespace (regex `[^a-zA-Z\s]+` substituted by the empty string),
strip, lowercase, split into whitespace-separated tokens. -/
def clean_name (name : String) : List (List Char) :=
  splitWs ((pyStripL (name.toList.filter (fun c => c.isAlpha || isPyWs c))).map Char.toLower)

/-- Characters the `DOMAIN_CLEAN_RE` class `[a-z0-9.\-]` keeps. -/
def domChar (c : Char) : Bool :=
  ('a' ≤ c && c ≤ 'z') || c.isDigit || c = '.' || c = '-'

/-- The string `clean_domain` builds before its validity test: strip and
lowercase, drop one leading at sign, delete every character outside
`[a-z0-9.-]`. -/
def cleanDomainChars (domain : String) : List Char :=
  let d := (pyStripL domain.toList).map Char.toLower
  let d := match d with
    | '@' :: rest => rest
    | _ => d
  d.filter domChar

/-- Python `clean_domain`: returns the cleaned domain, or raises HTTP 400
(modelled as `Except.error 400`) when the cleaned string has no dot or is
empty. -/
def clean_domain (domain : String) : Except Nat String :=
  let d := cleanDomainChars domain
  if '.' ∉ d ∨ d = [] then Except.error 400 else Except.ok (String.mk d)

/-- The pattern list of `generate_patterns` before deduplication, in the
source order, skipping entries whose required component is missing. -/
def rawPatterns (full_name domain : String) : List String :=
  match clean_name full_name with
  | [] => []
  | parts@(first :: _) =>
    let dl := domain.toList
    let lastTok := if parts.length > 1 then parts.getLastD [] else []
    let fi := first.take 1
    let li := lastTok.take 1
    [String.mk (first ++ '@' :: dl)] ++
    (if lastTok ≠ [] then [String.mk (lastTok ++ '@' :: dl)] else []) ++
    (if lastTok ≠ [] ∧ fi ≠ [] then [String.mk (fi ++ '.' :: lastTok ++ '@' :: dl)] else []) ++
    (if lastTok ≠ [] then [String.mk (first ++ '.' :: lastTok ++ '@' :: dl)] else []) ++
    (if li ≠ [] then [String.mk (first ++ '.' :: li ++ '@' :: dl)] else []) ++
    (if lastTok ≠ [] then [String.mk (first ++ lastTok ++ '@' :: dl)] else []) ++
    (if lastTok ≠ [] then [String.mk (lastTok ++ first ++ '@' :: dl)] else []) ++
    (if fi ≠ [] ∧ li ≠ [] then [String.mk (fi ++ li ++ '@' :: dl)] else [])

/-- The source's de-duplication loop: a `seen` set plus an output list,
keeping the first occurrence of each element. -/
def dedupFirstAux {α : Type} [DecidableEq α] (seen : List α) : List α → List α
  | [] => []
  | x :: xs =>
    if x ∈ seen then dedupFirstAux seen xs
    else x :: dedupFirstAux (x :: seen) xs

def dedupFirst {α : Type} [DecidableEq α] (l : List α) : List α := dedupFirstAux [] l

/-- Python `generate_patterns`: ordered pattern list, deduplicated keeping
first occurrences. -/
def generate_patterns (full_name domain : String) : List String :=
  dedupFirst (rawPatterns full_name domain)

/-! ## app/verifier.py: MX resolution -/

/-- Python `str.rstrip('.')` on a character list: remove every trailing dot. -/
def pyRstripDotL (l : List Char) : List Char :=
  (l.reverse.dropWhile (· = '.')).reverse

/-- Python `str.rstrip('.')`. -/
def pyRstripDot (s : String) : String := String.mk (pyRstripDotL s.toList)

/-- The MX cache read (`MXCache.get`): an entry for the domain whose age is
within the TTL, otherwise nothing.  The store is the association list of
`(domain, (timestamp, records))` entries; the lazy eviction only removes the
entry it would anyway not return, so the returned value is unchanged by it. -/
def mxCacheGet (ttl now : ℚ) (store : List (String × ℚ × List String)) (domain : String) :
    Option (List String) :=
  match store.find? (fun kv => kv.1 == domain) with
  | none => none
  | some kv => if now - kv.2.1 > ttl then none else some kv.2.2

/-- Python `resolve_mx`, with the DNS layer's answer strings (each the text
form of an exchange name, usually ending in the root dot) passed in
explicitly.  A cached truthy (nonempty) record list is returned as is;
otherwise each fresh answer is passed through `rstrip('.')` in order.
The write back into the cache does not affect the returned value and is not
modelled. -/
def resolve_mx (ttl now : ℚ) (store : List (String × ℚ × List String))
    (domain : String) (answers : List String) : List String :=
  match mxCacheGet ttl now store domain with
  | some cached => if cached ≠ [] then cached else answers.map pyRstripDot
  | none => answers.map pyRstripDot

/-- Does the second list occur at the head of the first? -/
def startsWithSeq : List Char → List Char → Bool
  | _, [] => true
  | [], _ :: _ => false
  | c :: cs, p :: ps => c = p && startsWithSeq cs ps

/-- Does the second list occur contiguously anywhere inside the first? -/
def containsSeq (s pat : List Char) : Bool :=
  match s with
  | [] => pat.isEmpty
  | _ :: cs => startsWithSeq s pat || containsSeq cs pat

/-- Python substring membership `pat in s`. -/
def strContains (s pat : String) : Bool := containsSeq s.toList pat.toList

/-- Python `detect_mx_provider`. -/
def detect_mx_provider (mx_host : String) : String :=
  let h := pyLower mx_host
  if strContains h "outlook" || strContains h "protection" then "microsoft365"
  else if strContains h "google.com" || strContains h "aspmx" then "google"
  else if strContains h "pphosted" || strContains h "proofpoint" then "proofpoint"
  else if strContains h "mimecast" then "mimecast"
  else if strContains h "barracuda" then "barracuda"
  else "unknown"

/-! ## app/verifier.py: timing analysis -/

/-- One probe record `(address, code or absent, latency ms or absent)`. -/
abbrev ProbeRec := String × Option Int × Option ℚ

/-- Python `int(x)`: truncation toward zero. -/
def pyInt (q : ℚ) : Int := if q < 0 then -(Int.floor (-q)) else Int.floor q

/-- Python `round(x, 2)` modelled as round-half-up to two decimals. -/
def round2 (q : ℚ) : ℚ := ((round (q * 100) : ℤ) : ℚ) / 100

/-- Python `analyze_timing`: returns
`(confidence, delta_ms, entropy, avg_latency_ms)`. -/
def analyze_timing (seq : List ProbeRec) : ℚ × Int × Nat × Option Int :=
  let times := seq.filterMap (fun p => p.2.2)
  let codes := seq.filterMap (fun p => p.2.1)
  match times with
  | [] => (0, 0, 1, none)
  | t :: ts =>
    let delta := pyInt ((ts.foldl max t) - (ts.foldl min t))
    let avg_latency := pyInt ((t :: ts).sum / ((t :: ts).length : ℚ))
    let entropy := if codes = [] then 1 else ((codes.map (fun c => toString c)).dedup).length
    let conf0 : ℚ :=
      if delta > 120 then 0.25
      else if delta > 80 then 0.18
      else if delta > 40 then 0.12
      else if delta > 10 then 0.06
      else 0
    let conf1 := conf0 + (if entropy > 1 then 0.05 else 0)
    let conf := round2 (min conf1 0.35)
    (conf, delta, entropy, some avg_latency)

/-! ## app/verifier.py: behavioral and ESP-aware scoring -/

structure ScoreOut where
  Pattern : String
  Score : ℚ
  Status : String
  Deliverable : Bool
  deriving Repr, DecidableEq

/-- Python `x or d` on an optional number: `None` and `0` are falsy. -/
def pyOr (x : Option ℚ) (d : ℚ) : ℚ :=
  match x with
  | none => d
  | some v => if v = 0 then d else v

/-- Python `isinstance(x, (int, float))` applied to a value that the dynamic
types of the call sites guarantee to be a number; after `or 0` the argument
is always a number, so this is constantly true. -/
def isNumber (_ : ℚ) : Bool := true

/-- The text Python interpolates for an optional reply code. -/
def codeStr (c : Option Int) : String :=
  match c with
  | none => "None"
  | some n => toString n

/-- The decision-threshold tail of `behavioral_score`. -/
def decide_status (score : ℚ) : String × Bool :=
  if score ≥ 80 then ("valid", true)
  else if score ≥ 55 then ("risky", false)
  else ("invalid", false)

/-- Python `behavioral_score`. -/
def behavioral_score (fake1_t fake2_t real_t : Option ℚ) (confidence : ℚ)
    (entropy : Nat) (provider : String) (real_code : Option Int) : ScoreOut :=
  if !(isNumber (pyOr fake1_t 0) && isNumber (pyOr real_t 0)) then
    { Pattern := "no_data", Score := 0, Status := "invalid", Deliverable := false }
  else
    let fake2_t := match fake2_t with
      | none => fake1_t
      | some v => some v
    let avg_fake := (pyOr fake1_t 0 + pyOr fake2_t 0) / 2
    let gap_fakes := |pyOr fake1_t 0 - pyOr fake2_t 0|
    let gap_real_vs_avg_fake := |pyOr real_t 0 - avg_fake|
    let pattern :=
      if gap_fakes < 20 ∧ gap_real_vs_avg_fake < 20 then "flat_pattern"
      else if gap_real_vs_avg_fake > 60 ∧ pyOr real_t 0 > avg_fake then "strong_delay"
      else if gap_fakes < 25 ∧ 20 ≤ gap_real_vs_avg_fake ∧ gap_real_vs_avg_fake ≤ 50 then "semi_flat"
      else "unclear"
    let base :=
      min (gap_real_vs_avg_fake / 80) 1 * 40 +
      (1 - min (gap_fakes / 100) 1) * 20 +
      min (confidence / 0.35) 1 * 20 +
      min ((entropy : ℚ) / 3) 1 * 10
    let score := min 99 (round2 base)
    let sp :=
      if provider ∈ ["microsoft365", "proofpoint", "mimecast", "barracuda"] then
        if real_code ∈ [some (250 : Int), some 450, some 451, some 452] then
          ((99 : ℚ), "smtp_" ++ codeStr real_code ++ "_valid")
        else if real_code = some 550 then
          ((10 : ℚ), "smtp_550_invalid")
        else (score, "smtp_" ++ codeStr real_code ++ "_unclear")
      else if provider = "google" then
        if pattern = "strong_delay" then (max score 90, pattern)
        else if pattern = "flat_pattern" then (min score 40, pattern)
        else (score, pattern)
      else (score, pattern)
    { Pattern := sp.2, Score := sp.1,
      Status := (decide_status sp.1).1, Deliverable := (decide_status sp.1).2 }

/-! ## app/verifier.py: single verification -/

/-- The outcome of the `resolve_mx` call inside `verify_email`: either the
returned host list or the raised exception's message. -/
inductive DnsOutcome where
  | ok (hosts : List String)
  | err (msg : String)
  deriving Repr, DecidableEq

structure VerifyResult where
  email : String
  Fake1_Code : Option Int
  Fake1_Time : Option ℚ
  Real_Code : Option Int
  Real_Time : Option ℚ
  Fake2_Code : Option Int
  Fake2_Time : Option ℚ
  Timing_Delta : Option Int
  Entropy : Option Nat
  Avg_Latency : Option Int
  Confidence : Option ℚ
  Provider : Option String
  Pattern : Option String
  Status : String
  Deliverable : Bool
  Score : ℚ
  Reason : Option String
  MX : List String
  deriving Repr, DecidableEq

/-- The result dictionary as `verify_email` initializes it. -/
def emptyResult (email : String) : VerifyResult :=
  { email := email
    Fake1_Code := none, Fake1_Time := none
    Real_Code := none, Real_Time := none
    Fake2_Code := none, Fake2_Time := none
    Timing_Delta := none, Entropy := none
    Avg_Latency := none, Confidence := none
    Provider := none, Pattern := none
    Status := "invalid", Deliverable := false
    Score := 0, Reason := none, MX := [] }

/-- Python `verify_email`, with the DNS outcome for the address's domain and
the probe sequence returned by `smtp_multi_probe` passed in explicitly.
Probe record `i` (when present) populates the `Fake1`, `Real`, `Fake2` slots
in order; the scorer receives the lifted fields exactly as the source passes
them. -/
def verify_email (email : String) (dns : DnsOutcome) (seq : List ProbeRec) : VerifyResult :=
  let em := pyStrip email
  if !(emailMatch em) then
    { emptyResult em with Reason := some "bad_syntax" }
  else
    match dns with
    | DnsOutcome.err e => { emptyResult em with Reason := some ("mx_error:" ++ e) }
    | DnsOutcome.ok mx_records =>
      if mx_records = [] then
        { emptyResult em with MX := mx_records, Reason := some "no_mx" }
      else
        let provider := detect_mx_provider (mx_records.headD "")
        let p1 := seq[0]?
        let p2 := seq[1]?
        let p3 := seq[2]?
        let a := analyze_timing seq
        let scored := behavioral_score (p1.bind (fun p => p.2.2)) (p3.bind (fun p => p.2.2))
          (p2.bind (fun p => p.2.2)) a.1 a.2.2.1 provider (p2.bind (fun p => p.2.1))
        { email := em
          Fake1_Code := p1.bind (fun p => p.2.1), Fake1_Time := p1.bind (fun p => p.2.2)
          Real_Code := p2.bind (fun p => p.2.1), Real_Time := p2.bind (fun p => p.2.2)
          Fake2_Code := p3.bind (fun p => p.2.1), Fake2_Time := p3.bind (fun p => p.2.2)
          Timing_Delta := some a.2.1, Entropy := some a.2.2.1
          Avg_Latency := a.2.2.2, Confidence := some a.1
          Provider := some provider, Pattern := some scored.Pattern
          Status := scored.Status, Deliverable := scored.Deliverable
          Score := scored.Score, Reason := some "pattern_analysis", MX := mx_records }

/-! ## app/verifier.py: bulk verification -/

/-- The bulk pre-filter: keep the truthy (nonempty) inputs matching
`EMAIL_REGEX`, normalized (stripped). -/
def bulkPrefilter (emails : List String) : List String :=
  (emails.filter (fun e => !(e == "") && emailMatch e)).map pyStrip

/-- Python `verify_bulk_emails`.  `completionOrder` is the order in which the
worker futures complete (an arbitrary permutation of the surviving inputs);
`f` maps an address to the result its worker delivers (the `verify_email`
result, or the small error record the except branch builds).  The dict
comprehension keyed by result email keeps the last write, and the final
comprehension re-orders by the surviving input sequence, dropping addresses
that have no entry. -/
def verify_bulk_emails (emails : List String) (completionOrder : List String)
    (f : String → VerifyResult) : List VerifyResult :=
  let survivors := bulkPrefilter emails
  if survivors = [] then []
  else
    let results := completionOrder.map f
    let lookup := fun e => results.reverse.find? (fun r => r.email == e)
    survivors.filterMap lookup

/-! ## Helper lemmas about the scorer -/

/-- The scorer's `Status` and `Deliverable` fields are exactly the decision
thresholds applied to its `Score` field, in both the (unreachable) no-data
branch and the main branch. -/
theorem behavioral_score_status_deliver (f1 f2 r : Option ℚ) (c : ℚ) (e : Nat)
    (p : String) (rc : Option Int) :
    ((behavioral_score f1 f2 r c e p rc).Status,
      (behavioral_score f1 f2 r c e p rc).Deliverable) =
      decide_status (behavioral_score f1 f2 r c e p rc).Score := rfl

theorem decide_status_spec (s : ℚ) :
    (80 ≤ s → decide_status s = ("valid", true)) ∧
    (55 ≤ s ∧ s < 80 → decide_status s = ("risky", false)) ∧
    (s < 55 → decide_status s = ("invalid", false)) := by
  unfold decide_status
  split_ifs with h1 h2 <;>
    refine ⟨fun h => ?_, fun h => ?_, fun h => ?_⟩ <;>
    first
      | rfl
      | (exfalso; push_neg at h1; first | linarith [h.1, h.2] | linarith)

theorem decide_status_deliver_iff (s : ℚ) :
    (decide_status s).2 = true ↔ (decide_status s).1 = "valid" := by
  unfold decide_status
  split_ifs <;> simp

theorem behavioral_score_deliver_iff (f1 f2 r : Option ℚ) (c : ℚ) (e : Nat)
    (p : String) (rc : Option Int) :
    (behavioral_score f1 f2 r c e p rc).Deliverable = true ↔
      (behavioral_score f1 f2 r c e p rc).Status = "valid" := by
  have hp := behavioral_score_status_deliver f1 f2 r c e p rc
  have hs := congrArg Prod.fst hp
  have hd := congrArg Prod.snd hp
  simp only at hs hd
  rw [hs, hd]
  exact decide_status_deliver_iff _

/-! ## Claim theorems (scorer) -/

/-- Claim C1 (code bug evidence): the spec requires the scorer to return the
record with Pattern "no_data" and Score 0 whenever decoy1_time or real_time
is absent, in particular at the connect-failure sentinel where all times are
absent.  The source's safety guard tests `isinstance` on `fake1_t or 0` and
`real_t or 0`, which are always numbers, so the guard never fires: at the
all-absent input the code instead computes a flat_pattern record with score
23.33. -/
theorem behavioral_score_sentinel_not_no_data :
    behavioral_score none none none 0 1 "unknown" none =
      { Pattern := "flat_pattern", Score := 2333 / 100, Status := "invalid",
        Deliverable := false } ∧
    behavioral_score none none none 0 1 "unknown" none ≠
      { Pattern := "no_data", Score := 0, Status := "invalid", Deliverable := false } := by
  constructor <;> with_unfolding_all decide

/-- Claim C7: the scorer substitutes decoy1_time for an absent decoy2_time
before any arithmetic, so calling it with decoy2_time absent gives exactly
the output of calling it with decoy2_time equal to decoy1_time, for every
input. -/
theorem behavioral_score_missing_fake2 (fake1_t real_t : Option ℚ) (confidence : ℚ)
    (entropy : Nat) (provider : String) (real_code : Option Int) :
    behavioral_score fake1_t none real_t confidence entropy provider real_code =
      behavioral_score fake1_t fake1_t real_t confidence entropy provider real_code := by
  cases fake1_t <;> rfl

/-- Claim C5: the decision thresholds of the scorer map the final score to
the categorical status exactly as the spec's table states: a score of at
least 80 is valid and deliverable (so exactly 80 is valid), a score in
[55, 80) is risky (so 79.99 and exactly 55 are risky), and a score below 55
is invalid (so 54.99 is invalid). -/
theorem behavioral_score_thresholds (f1 f2 r : Option ℚ) (c : ℚ) (e : Nat)
    (p : String) (rc : Option Int) :
    (80 ≤ (behavioral_score f1 f2 r c e p rc).Score →
      (behavioral_score f1 f2 r c e p rc).Status = "valid" ∧
      (behavioral_score f1 f2 r c e p rc).Deliverable = true) ∧
    (55 ≤ (behavioral_score f1 f2 r c e p rc).Score ∧
        (behavioral_score f1 f2 r c e p rc).Score < 80 →
      (behavioral_score f1 f2 r c e p rc).Status = "risky" ∧
      (behavioral_score f1 f2 r c e p rc).Deliverable = false) ∧
    ((behavioral_score f1 f2 r c e p rc).Score < 55 →
      (behavioral_score f1 f2 r c e p rc).Status = "invalid" ∧
      (behavioral_score f1 f2 r c e p rc).Deliverable = false) := by
  have hp := behavioral_score_status_deliver f1 f2 r c e p rc
  have hs := congrArg Prod.fst hp
  have hd := congrArg Prod.snd hp
  simp only at hs hd
  have hds := decide_status_spec (behavioral_score f1 f2 r c e p rc).Score
  refine ⟨fun h => ?_, fun h => ?_, fun h => ?_⟩
  · rw [hds.1 h] at hs hd
    exact ⟨hs, hd⟩
  · rw [hds.2.1 h] at hs hd
    exact ⟨hs, hd⟩
  · rw [hds.2.2 h] at hs hd
    exact ⟨hs, hd⟩

/-- Witness for claim C5 at a concrete input whose score is 99. -/
theorem behavioral_score_thresholds_witness :
    (behavioral_score (some 10) (some 10) (some 10) 0 1 "microsoft365" (some 250)).Status = "valid" ∧
    (behavioral_score (some 10) (some 10) (some 10) 0 1 "microsoft365" (some 250)).Deliverable = true :=
  (behavioral_score_thresholds (some 10) (some 10) (some 10) 0 1 "microsoft365" (some 250)).1
    (by decide)

/-- Claim C2: for every result produced by the scorer, by verify_email, or
collected by verify_bulk_emails from workers whose results satisfy the
invariant (both the verify_email result and the except-branch error record
do), the Deliverable field is true exactly when Status is "valid". -/
theorem result_deliverable_iff_valid :
    (∀ f1 f2 r c e p rc,
      ((behavioral_score f1 f2 r c e p rc).Deliverable = true ↔
        (behavioral_score f1 f2 r c e p rc).Status = "valid")) ∧
    (∀ email dns seq,
      ((verify_email email dns seq).Deliverable = true ↔
        (verify_email email dns seq).Status = "valid")) ∧
    (∀ emails order f,
      (∀ e ∈ order, (f e).Deliverable = true ↔ (f e).Status = "valid") →
      ∀ res ∈ verify_bulk_emails emails order f,
        (res.Deliverable = true ↔ res.Status = "valid")) := by
  refine ⟨behavioral_score_deliver_iff, fun email dns seq => ?_, fun emails order f hf res hres => ?_⟩
  · cases hm : emailMatch (pyStrip email) with
    | false => simp [verify_email, hm, emptyResult]
    | true =>
      cases dns with
      | err e => simp [verify_email, hm, emptyResult]
      | ok mx =>
        by_cases hmx : mx = []
        · simp [verify_email, hm, hmx, emptyResult]
        · simp [verify_email, hm, hmx, behavioral_score_deliver_iff]
  · dsimp only [verify_bulk_emails] at hres
    split at hres
    · exact absurd hres (List.not_mem_nil res)
    · obtain ⟨e, he, hlook⟩ := List.mem_filterMap.mp hres
      have hmem := List.mem_of_find?_eq_some hlook
      rw [List.mem_reverse] at hmem
      obtain ⟨e2, he2, hfe⟩ := List.mem_map.mp hmem
      rw [← hfe]
      exact hf e2 he2

/-- Witness for claim C2's bulk conjunct on a one-element batch. -/
theorem result_deliverable_iff_valid_witness :
    ((verify_email "a@b.cd" (DnsOutcome.err "x") []).Deliverable = true ↔
      (verify_email "a@b.cd" (DnsOutcome.err "x") []).Status = "valid") :=
  result_deliverable_iff_valid.2.2 ["a@b.cd"] ["a@b.cd"]
    (fun e => verify_email e (DnsOutcome.err "x") []) (by decide)
    (verify_email "a@b.cd" (DnsOutcome.err "x") []) (by decide)

/-! ## Claim theorems (timing analysis) -/

/-- The confidence computation as the spec words it (section 4.4): a tier by
delta with strict thresholds, a nudge for entropy above 1, clamped to 0.35
and rounded to two decimals.  Stated separately from `analyze_timing` so the
code can be compared against it. -/
def confidence_spec (delta : Int) (entropy : Nat) : ℚ :=
  let tier : ℚ :=
    if delta > 120 then 0.25
    else if delta > 80 then 0.18
    else if delta > 40 then 0.12
    else if delta > 10 then 0.06
    else 0
  round2 (min (tier + (if entropy > 1 then 0.05 else 0)) 0.35)

theorem round2_min_bounds (q : ℚ) (h : 0 ≤ q) :
    0 ≤ round2 (min q 0.35) ∧ round2 (min q 0.35) ≤ 0.35 := by
  have hx0 : (0 : ℚ) ≤ min q 0.35 := le_min h (by norm_num)
  have hx35 : min q 0.35 ≤ 0.35 := min_le_right _ _
  have h1 : (0 : ℤ) ≤ round (min q 0.35 * 100) := by
    rw [round_eq]
    refine Int.le_floor.mpr ?_
    push_cast
    nlinarith
  have h2 : round (min q 0.35 * 100) ≤ 35 := by
    have h4 : round (min q 0.35 * 100) < 35 + 1 := by
      rw [round_eq]
      refine Int.floor_lt.mpr ?_
      push_cast
      nlinarith
    exact Int.lt_add_one_iff.mp h4
  constructor
  · unfold round2
    apply div_nonneg _ (by norm_num)
    exact_mod_cast h1
  · unfold round2
    rw [div_le_iff₀ (by norm_num)]
    calc ((round (min q 0.35 * 100) : ℤ) : ℚ) ≤ (35 : ℚ) := by exact_mod_cast h2
    _ = 0.35 * 100 := by norm_num

/-- Claim C6: for every probe sequence, the confidence computed by
`analyze_timing` equals the spec's tiered formula applied to the delta and
entropy it computes (in particular delta exactly 120 falls in the +0.18
tier because the comparisons are strict), and confidence always lies in
[0, 0.35].  The final conjunct exercises delta = 120 concretely. -/
theorem analyze_timing_confidence :
    (∀ seq : List ProbeRec,
      (analyze_timing seq).1 =
        confidence_spec (analyze_timing seq).2.1 (analyze_timing seq).2.2.1) ∧
    (∀ seq : List ProbeRec,
      0 ≤ (analyze_timing seq).1 ∧ (analyze_timing seq).1 ≤ 0.35) ∧
    analyze_timing [("d1", some 250, some 0), ("real", some 250, some 120)] =
      (0.18, 120, 1, some 60) := by
  refine ⟨fun seq => ?_, fun seq => ?_, by with_unfolding_all decide⟩
  · rcases h : seq.filterMap (fun p => p.2.2) with _ | ⟨t, ts⟩
    · simp only [analyze_timing, h, confidence_spec]
      with_unfolding_all decide
    · simp only [analyze_timing, h, confidence_spec]
  · rcases h : seq.filterMap (fun p => p.2.2) with _ | ⟨t, ts⟩
    · simp only [analyze_timing, h]
      constructor <;> with_unfolding_all decide
    · simp only [analyze_timing, h]
      refine round2_min_bounds _ ?_
      apply add_nonneg <;> split_ifs <;> norm_num

/-! ## Claim theorems (single verification, terminal reasons) -/

/-- Does the string begin with the text mx_error: as the spec's reason
taxonomy describes? -/
def isMxError (s : String) : Bool := startsWithSeq s.toList "mx_error:".toList

/-- Claim C4: every verify_email result whose Reason is bad_syntax, no_mx or
an mx_error leaves all probe and timing fields absent and the score at 0;
these are exactly the early returns that never touch the probe fields of the
initial result record. -/
theorem verify_email_terminal_fields (email : String) (dns : DnsOutcome) (seq : List ProbeRec)
    (h : (verify_email email dns seq).Reason = some "bad_syntax" ∨
         (verify_email email dns seq).Reason = some "no_mx" ∨
         (∃ s, (verify_email email dns seq).Reason = some s ∧ isMxError s = true)) :
    (verify_email email dns seq).Fake1_Code = none ∧
    (verify_email email dns seq).Fake1_Time = none ∧
    (verify_email email dns seq).Real_Code = none ∧
    (verify_email email dns seq).Real_Time = none ∧
    (verify_email email dns seq).Fake2_Code = none ∧
    (verify_email email dns seq).Fake2_Time = none ∧
    (verify_email email dns seq).Timing_Delta = none ∧
    (verify_email email dns seq).Entropy = none ∧
    (verify_email email dns seq).Avg_Latency = none ∧
    (verify_email email dns seq).Confidence = none ∧
    (verify_email email dns seq).Score = 0 := by
  cases hm : emailMatch (pyStrip email) with
  | false => simp [verify_email, hm, emptyResult]
  | true =>
    cases dns with
    | err e => simp [verify_email, hm, emptyResult]
    | ok mx =>
      by_cases hmx : mx = []
      · simp [verify_email, hm, hmx, emptyResult]
      · exfalso
        have hr : (verify_email email (DnsOutcome.ok mx) seq).Reason = some "pattern_analysis" := by
          simp [verify_email, hm, hmx]
        rcases h with h | h | ⟨s, hs, hms⟩
        · rw [hr] at h
          simp at h
        · rw [hr] at h
          simp at h
        · rw [hr] at hs
          obtain rfl := Option.some.inj hs
          exact absurd hms (by decide)

/-- Witness for claim C4 on a syntactically invalid address. -/
theorem verify_email_terminal_fields_witness :
    (verify_email "x" (DnsOutcome.err "") []).Fake1_Code = none ∧
    (verify_email "x" (DnsOutcome.err "") []).Fake1_Time = none ∧
    (verify_email "x" (DnsOutcome.err "") []).Real_Code = none ∧
    (verify_email "x" (DnsOutcome.err "") []).Real_Time = none ∧
    (verify_email "x" (DnsOutcome.err "") []).Fake2_Code = none ∧
    (verify_email "x" (DnsOutcome.err "") []).Fake2_Time = none ∧
    (verify_email "x" (DnsOutcome.err "") []).Timing_Delta = none ∧
    (verify_email "x" (DnsOutcome.err "") []).Entropy = none ∧
    (verify_email "x" (DnsOutcome.err "") []).Avg_Latency = none ∧
    (verify_email "x" (DnsOutcome.err "") []).Confidence = none ∧
    (verify_email "x" (DnsOutcome.err "") []).Score = 0 :=
  verify_email_terminal_fields "x" (DnsOutcome.err "") [] (Or.inl (by decide))

/-! ## Claim theorems (MX resolution) -/

theorem dropWhile_head_false {α : Type} (p : α → Bool) (l : List α) (c : α)
    (h : (l.dropWhile p).head? = some c) : p c = false := by
  induction l with
  | nil => simp at h
  | cons a as ih =>
    rw [List.dropWhile_cons] at h
    split at h
    · exact ih h
    · next hp =>
      simp only [List.head?_cons, Option.some.injEq] at h
      subst h
      exact Bool.eq_false_iff.mpr hp

/-- Python `rstrip('.')` removes exactly a maximal run of trailing dots: the
output never ends in a dot and the input is the output followed by some
number of dots. -/
theorem pyRstripDotL_spec (l : List Char) :
    (pyRstripDotL l).getLast? ≠ some '.' ∧
    ∃ k, l = pyRstripDotL l ++ List.replicate k '.' := by
  constructor
  · intro h
    unfold pyRstripDotL at h
    rw [List.getLast?_reverse] at h
    have hc := dropWhile_head_false (· = '.') l.reverse _ h
    simp at hc
  · refine ⟨(l.reverse.takeWhile (· = '.')).length, ?_⟩
    unfold pyRstripDotL
    have htake : l.reverse.takeWhile (· = '.') =
        List.replicate (l.reverse.takeWhile (· = '.')).length '.' :=
      List.eq_replicate_of_mem (fun b hb => by simpa using List.mem_takeWhile_imp hb)
    calc l = l.reverse.reverse := (List.reverse_reverse l).symm
    _ = (l.reverse.takeWhile (· = '.') ++ l.reverse.dropWhile (· = '.')).reverse := by
        rw [List.takeWhile_append_dropWhile]
    _ = (l.reverse.dropWhile (· = '.')).reverse ++ (l.reverse.takeWhile (· = '.')).reverse := by
        rw [List.reverse_append]
    _ = (l.reverse.dropWhile (· = '.')).reverse ++
          List.replicate (l.reverse.takeWhile (· = '.')).length '.' := by
        rw [← List.reverse_replicate, ← htake]

/-- Claim C3 (counterexample): resolve_mx does not lowercase; on a fresh
lookup whose DNS answer is MX1.Example.COM. the returned hostname keeps its
case, so the claim that every returned hostname is lowercased is false. -/
theorem resolve_mx_not_lowercased :
    resolve_mx 3600 0 [] "example.com" ["MX1.Example.COM."] = ["MX1.Example.COM"] ∧
    ¬ (resolve_mx 3600 0 [] "example.com" ["MX1.Example.COM."]).all
        (fun h => h = pyLower h) := by
  constructor <;> with_unfolding_all decide

/-- Claim C3 (amended): on a fresh lookup (empty cache) resolve_mx returns
one hostname per DNS answer, in the DNS layer's order, each equal to its
answer with the maximal run of trailing dots removed; case is preserved, not
lowercased. -/
theorem resolve_mx_fresh_strips_trailing_dots (ttl now : ℚ) (domain : String)
    (answers : List String) :
    List.Forall₂ (fun a h =>
        h.toList.getLast? ≠ some '.' ∧
        ∃ k, a.toList = h.toList ++ List.replicate k '.')
      answers (resolve_mx ttl now [] domain answers) := by
  have hres : resolve_mx ttl now [] domain answers = answers.map pyRstripDot := rfl
  rw [hres, List.forall₂_map_right_iff, List.forall₂_same]
  intro a _
  exact pyRstripDotL_spec a.toList

/-! ## Claim theorems (finder helpers) -/

theorem domChar_toLower (c : Char) (h : domChar c = true) : c.toLower = c := by
  have hn : ¬(65 ≤ c.toNat ∧ c.toNat ≤ 90) := by
    rintro ⟨hu1, hu2⟩
    simp only [domChar, Char.isDigit, Bool.or_eq_true, Bool.and_eq_true,
      decide_eq_true_eq] at h
    rcases h with (((⟨h1, h2⟩ | ⟨h1, h2⟩) | h3) | h4)
    · rw [Char.le_def, UInt32.le_def, BitVec.le_def] at h1 h2
      rw [show ('a'.val.toBitVec.toNat) = 97 from rfl] at h1
      rw [show ('z'.val.toBitVec.toNat) = 122 from rfl] at h2
      simp only [Char.toNat, UInt32.toNat] at hu1 hu2
      omega
    · rw [ge_iff_le, UInt32.le_def, BitVec.le_def] at h1
      rw [UInt32.le_def, BitVec.le_def] at h2
      rw [show ((48 : UInt32).toBitVec.toNat) = 48 from rfl] at h1
      rw [show ((57 : UInt32).toBitVec.toNat) = 57 from rfl] at h2
      simp only [Char.toNat, UInt32.toNat] at hu1 hu2
      omega
    · subst h3; exact absurd hu1 (by decide)
    · subst h4; exact absurd hu1 (by decide)
  simp only [Char.toLower, ge_iff_le]
  rw [if_neg hn]

/-- Claim C10: clean_domain raises 400 exactly when the cleaned string
(stripped, lowercased, one leading at sign dropped, characters outside
a-z0-9.- removed) contains no dot; any returned string is that cleaned
string, so it consists only of the allowed lowercase characters, is fixed
by lowercasing, and contains a dot. -/
theorem clean_domain_spec (s : String) :
    (clean_domain s = Except.error 400 ↔ '.' ∉ cleanDomainChars s) ∧
    (∀ d, clean_domain s = Except.ok d →
      d = String.mk (cleanDomainChars s) ∧
      d.toList.all domChar = true ∧
      '.' ∈ d.toList ∧
      d.toList.map Char.toLower = d.toList) := by
  constructor
  · dsimp only [clean_domain]
    split
    · next hcond =>
      constructor
      · intro _
        rcases hcond with hdot | hnil
        · exact hdot
        · rw [hnil]; exact List.not_mem_nil '.'
      · intro _; rfl
    · next hcond =>
      push_neg at hcond
      constructor
      · intro h; exact Except.noConfusion h
      · intro hdot; exact absurd hcond.1 hdot
  · intro d hd
    dsimp only [clean_domain] at hd
    split at hd
    · exact Except.noConfusion hd
    · next hcond =>
      push_neg at hcond
      obtain ⟨hdot, hne⟩ := hcond
      injection hd with hd
      subst hd
      have hmem : ∀ a ∈ (String.mk (cleanDomainChars s)).toList, domChar a = true := by
        intro a ha
        have ha2 : a ∈ cleanDomainChars s := ha
        unfold cleanDomainChars at ha2
        exact (List.mem_filter.mp ha2).2
      refine ⟨rfl, ?_, hdot, ?_⟩
      · rw [List.all_eq_true]
        exact hmem
      · exact (List.map_congr_left (fun a ha => domChar_toLower a (hmem a ha))).trans
          (List.map_id _)

/-- Witness for claim C10 on the spec's round-trip example input. -/
theorem clean_domain_spec_witness :
    "x.com" = String.mk (cleanDomainChars "@X.COM ") ∧
    "x.com".toList.all domChar = true ∧
    '.' ∈ "x.com".toList ∧
    "x.com".toList.map Char.toLower = "x.com".toList :=
  (clean_domain_spec "@X.COM ").2 "x.com" (by with_unfolding_all rfl)

theorem dedupFirstAux_sublist {α : Type} [DecidableEq α] (seen l : List α) :
    (dedupFirstAux seen l).Sublist l := by
  induction l generalizing seen with
  | nil => simp [dedupFirstAux]
  | cons x xs ih =>
    rw [dedupFirstAux]
    split
    · exact List.Sublist.cons x (ih seen)
    · exact List.Sublist.cons₂ x (ih (x :: seen))

theorem dedupFirstAux_nodup {α : Type} [DecidableEq α] (seen l : List α) :
    (dedupFirstAux seen l).Nodup ∧ ∀ x ∈ dedupFirstAux seen l, x ∉ seen := by
  induction l generalizing seen with
  | nil => simp [dedupFirstAux]
  | cons x xs ih =>
    rw [dedupFirstAux]
    split
    · exact ih seen
    · next hx =>
      obtain ⟨hnd, hmem⟩ := ih (x :: seen)
      refine ⟨List.nodup_cons.mpr ⟨fun hc => (hmem x hc) (List.mem_cons_self x seen), hnd⟩, ?_⟩
      intro y hy
      rcases List.mem_cons.mp hy with rfl | hy2
      · exact hx
      · intro hyseen
        exact (hmem y hy2) (List.mem_cons_of_mem _ hyseen)

/-- Claim C9: pattern generation is insensitive to the extra whitespace and
punctuation that name cleaning removes, and for every name and domain the
generated list has no duplicates and is an order-preserving sublist of the
raw canonical pattern sequence (first occurrences kept). -/
theorem generate_patterns_ordered_unique :
    generate_patterns "John Doe" "x.com" = generate_patterns "  John   Doe!!" "x.com" ∧
    ∀ name domain, (generate_patterns name domain).Nodup ∧
      (generate_patterns name domain).Sublist (rawPatterns name domain) := by
  refine ⟨by with_unfolding_all decide, fun name domain => ?_⟩
  exact ⟨(dedupFirstAux_nodup [] (rawPatterns name domain)).1,
    dedupFirstAux_sublist [] (rawPatterns name domain)⟩

/-! ## Claim theorems (bulk verification) -/

theorem filterMap_eq_map_of_forall {α β : Type} (l : List α) (g : α → Option β) (f : α → β)
    (h : ∀ a ∈ l, g a = some (f a)) : l.filterMap g = l.map f := by
  induction l with
  | nil => rfl
  | cons x xs ih =>
    rw [List.filterMap_cons, h x (List.mem_cons_self x xs), List.map_cons,
      ih (fun a ha => h a (List.mem_cons_of_mem _ ha))]

/-- Claim C8: for every input list, verify_bulk_emails returns exactly one
result per surviving input (nonempty and matching the syntax regex), in the
surviving inputs' order, for any completion order of the workers, provided
each worker's result carries its own address in the email field (which both
the verify_email result and the except-branch error record do). -/
theorem verify_bulk_emails_order (emails order : List String) (f : String → VerifyResult)
    (hperm : List.Perm order (bulkPrefilter emails))
    (hf : ∀ e ∈ bulkPrefilter emails, (f e).email = e) :
    verify_bulk_emails emails order f = (bulkPrefilter emails).map f := by
  by_cases hS : bulkPrefilter emails = []
  · simp [verify_bulk_emails, hS]
  · have hlook : ∀ e ∈ bulkPrefilter emails,
        (order.map f).reverse.find? (fun r => r.email == e) = some (f e) := by
      intro e he
      have hex : ∃ r, r ∈ (order.map f).reverse ∧ (r.email == e) = true := by
        refine ⟨f e, ?_, ?_⟩
        · rw [List.mem_reverse]
          exact List.mem_map.mpr ⟨e, hperm.mem_iff.mpr he, rfl⟩
        · simp [hf e he]
      obtain ⟨r, hr⟩ := Option.isSome_iff_exists.mp (List.find?_isSome.mpr hex)
      have hp := List.find?_some hr
      have hmem := List.mem_of_find?_eq_some hr
      rw [List.mem_reverse] at hmem
      obtain ⟨e2, he2, hfe2⟩ := List.mem_map.mp hmem
      have h1 : (f e2).email = e2 := hf e2 (hperm.mem_iff.mp he2)
      rw [hfe2] at h1
      have hre : r.email = e := by simpa using hp
      have he2e : e2 = e := by rw [← h1, hre]
      rw [hr, ← hfe2, he2e]
    dsimp only [verify_bulk_emails]
    rw [if_neg hS]
    exact filterMap_eq_map_of_forall _ _ _ hlook

/-- Witness for claim C8: a four-element batch with two survivors completed
in reverse order still yields the surviving inputs' order. -/
theorem verify_bulk_emails_order_witness :
    verify_bulk_emails ["b@c.com", "", "a@b.cd", "nope"] ["a@b.cd", "b@c.com"]
        (fun e => verify_email e (DnsOutcome.err "boom") []) =
      (bulkPrefilter ["b@c.com", "", "a@b.cd", "nope"]).map
        (fun e => verify_email e (DnsOutcome.err "boom") []) :=
  verify_bulk_emails_order _ _ _ (by with_unfolding_all decide)
    (by with_unfolding_all decide)
